import Mathlib

/-!
Verification of the tableroll handoff subsystem against its specification.

Each definition is a shallow embedding of the corresponding Go function:
pure Go functions become Lean functions on `Nat`/`List`/`String`; Go's
`uint32` arithmetic is `Nat` with explicit `% 2^32` where the Go value can
wrap; a Go `(T, error)` pair becomes `Option T × Option Err`; external
effects (socket writes, `net.Listen`, `dup`, `close`) are supplied as
oracle values in an environment structure so that the store/protocol logic
itself stays exactly the source's.
-/

namespace Tableroll

namespace Proto

/-- The four JSON-ignorable whitespace bytes: space = 32, tab = 9,
carriage return = 13, line feed = 10. -/
def isJSONIgnorableWhitespace (char : Nat) : Bool :=
  char == 32 || char == 9 || char == 13 || char == 10

/-- Embeds `encodeCrumb` (encode_version.go): a 2-bit value to a whitespace
byte. The Go switch panics for inputs ≥ 4; every caller masks its argument
to 2 bits first, so the final branch is only ever reached with input 3 and
the model folds the unreachable panic into it. -/
def encodeCrumb (crumb : Nat) : Nat :=
  if crumb = 0 then 32
  else if crumb = 1 then 9
  else if crumb = 2 then 13
  else 10

/-- Embeds `decodeCrumb` (encode_version.go): inverse of `encodeCrumb`,
`none` for a byte that is not one of the four whitespace codes. -/
def decodeCrumb (char : Nat) : Option Nat :=
  if char = 32 then some 0
  else if char = 9 then some 1
  else if char = 13 then some 2
  else if char = 10 then some 3
  else none

/-- Embeds `encodeVersion` (encode_version.go): while the value is nonzero,
take the low nibble, emit its two crumbs (low crumb first: `nibble & 0x3`
then `nibble >> 2`), and shift the value right by 4. -/
def encodeVersion (version : Nat) : List Nat :=
  if version = 0 then []
  else
    let nibble := version % 16
    encodeCrumb (nibble % 4) :: encodeCrumb (nibble / 4) :: encodeVersion (version / 16)
decreasing_by exact Nat.div_lt_self (Nat.pos_of_ne_zero (by assumption)) (by decide)

/-- The body of `decodeVersion`'s loop, which walks the input from its last
byte to its first; here the reversal is done once and the walk is
structural. Each step is `version = version << 2; version += crumb` on a
`uint32`, i.e. `(acc * 4 + crumb) % 2^32`. -/
def decodeLoop : List Nat → Nat → Option Nat
  | [], acc => some acc
  | char :: rest, acc =>
    match decodeCrumb char with
    | none => none
    | some crumb => decodeLoop rest ((acc * 4 + crumb) % 2 ^ 32)

/-- Embeds `decodeVersion` (encode_version.go): fold the crumbs from the
last byte to the first, shifting the accumulator left 2 bits each step;
any non-whitespace byte is an error (`none`). -/
def decodeVersion (data : List Nat) : Option Nat :=
  decodeLoop data.reverse 0

/-- Embeds the constant `ProtoVersion = 1` (internal/proto/consts.go),
referenced as `proto.Version` by sibling.go. -/
def ProtoVersion : Int := 1

/-- Embeds `VersionInformation` (internal/proto/proto.go); the `Version`
field is an `int32` populated from JSON. -/
structure VersionInformation where
  version : Int
deriving DecidableEq, Repr

end Proto

/-- Embeds the `file` struct (fds.go): an open file plus its descriptor
number. The display name is modeled as its byte sequence, since sendFile
checks the byte length of `fi.Name()`. -/
structure File where
  name : List Nat
  fd : Nat
deriving DecidableEq, Repr

/-- Embeds `fdKind` (fds.go). -/
inductive FdKind where
  | listener
  | conn
  | file
deriving DecidableEq, Repr

/-- Embeds the `fd` struct (fds.go): metadata plus the (possibly nil)
underlying file object. -/
structure Fd where
  file : Option File
  kind : FdKind
  id : String
  network : String
  addr : String
deriving DecidableEq, Repr

/-- The error values the embedded operations can return. Sentinel errors
(ErrUpgradeInProgress, ErrUpgradeCompleted, ErrUpgraderStopped, the
"no element in map" error) are modeled as constructors; wrapped I/O errors
keep only their identity, not their message text. -/
inductive Err where
  | upgradeInProgress
  | upgradeCompleted
  | upgraderStopped
  | noElementInMap (id : String)
  | inheritFailed
  | createFailed
  | notTableroll
  | dupFailed
  | openFailed
  | nameTooLong
  | closeFailed
  | connFileFailed
  | writeJSONFailed
  | sendFdFailed
  | readJSONFailed
  | unexpectedVersion (v : Int)
deriving DecidableEq, Repr

/-- A byte-level event observable on the handoff socket, in emission
order. -/
inductive WireEvent where
  /-- One framed record written by `proto.WriteVersionedJSONBlob`: the
  JSON-encoded metadata list, tagged with the given protocol version. -/
  | metadataBlob (entries : List Fd) (version : Int)
  /-- One `sendmsg` carrying a filename body and a single-rights ancillary
  record with one file descriptor (`sendFile`, fds.go). -/
  | fdMsg (body : List Nat) (fdRights : Nat)
deriving DecidableEq, Repr

/-- The wire message `sendFile` produces for a catalog entry: body is the
file's name bytes, ancillary data its descriptor. The `getD` default is
never used on entries that actually reach a send (they are pre-filtered
to have a file). -/
def fdWireMsg (fd : Fd) : WireEvent :=
  .fdMsg (fd.file.getD ⟨[], 0⟩).name (fd.file.getD ⟨[], 0⟩).fd

/-- Embeds `maxNameLen` (fds.go). -/
def maxNameLen : Nat := 4096

/-- Embeds `sendFile` (fds.go): reject names of `maxNameLen` bytes or more
before touching the socket; otherwise perform one `sendmsg` whose body is
the name and whose ancillary data is the single FD. `sendmsgResult` is the
oracle for the `unix.Sendmsg` return value; the emitted event records that
the transmission was attempted. -/
def sendFile (fi : File) (sendmsgResult : Option Err) : Option Err × List WireEvent :=
  if fi.name.length ≥ maxNameLen then (some .nameTooLong, [])
  else (sendmsgResult, [.fdMsg fi.name fi.fd])

/-- Oracle results for the effects `sibling.giveFDs` performs: converting
the connection to a file, writing the metadata record, each `sendmsg`
syscall (indexed by position in the send sequence), and the final
`awaitReady` exchange. -/
structure SiblingEnv where
  connFileOk : Bool
  writeJSONOk : Bool
  sendmsgResult : Nat → Option Err
  awaitResult : Option Err

/-- The send loop of `sibling.giveFDs`: one `sendFile` per entry of
`validFds`, stopping at the first failure. Entries reaching this loop all
have a non-nil file (Go would nil-panic otherwise), so the `getD` default
is never used on the loop's actual inputs. -/
def sendLoop (sendmsgResult : Nat → Option Err) : List Fd → Nat → Option Err × List WireEvent
  | [], _ => (none, [])
  | fi :: rest, i =>
    let step := sendFile (fi.file.getD ⟨[], 0⟩) (sendmsgResult i)
    match step.1 with
    | some _ => (some .sendFdFailed, step.2)
    | none =>
      let tail := sendLoop sendmsgResult rest (i + 1)
      (tail.1, step.2 ++ tail.2)

/-- Embeds `sibling.giveFDs` (sibling.go) as the sequence of wire events it
emits plus its return value. `fds` is the slice Go builds by iterating the
`passedFiles` map, in whatever (arbitrary) order that iteration yields; the
timeout watcher goroutine only force-closes the socket, which here surfaces
as failing oracle results. Valid entries are those with a non-nil file;
the metadata record is written first, then one FD per valid entry. -/
def giveFDs (env : SiblingEnv) (fds : List Fd) : Option Err × List WireEvent :=
  if !env.connFileOk then (some .connFileFailed, [])
  else
    let validFds := fds.filter (fun fd => fd.file.isSome)
    if !env.writeJSONOk then (some .writeJSONFailed, [])
    else
      let loop := sendLoop env.sendmsgResult validFds 0
      match loop.1 with
      | some e => (some e, .metadataBlob validFds Proto.ProtoVersion :: loop.2)
      | none => (env.awaitResult, .metadataBlob validFds Proto.ProtoVersion :: loop.2)

/-- Embeds the sender side `sibling.readyHandshake` (sibling.go).
`readResult` is the `(vInfo, err)` outcome of `proto.ReadJSONBlob`;
`writeStepDownResult` is the outcome of writing the
`V1MessageSteppingDown` ack. On a successful read of a matching version
the ack-write error is only logged — the function returns nil regardless,
preferring zero owners to two. -/
def readyHandshake (readResult : Proto.VersionInformation × Option Err)
    (writeStepDownResult : Option Err) : Option Err :=
  match readResult with
  | (_, some e) => some e
  | (vInfo, none) =>
    if vInfo.version ≠ Proto.ProtoVersion then some (.unexpectedVersion vInfo.version)
    else
      -- the ack write happens here; `writeStepDownResult` is logged, never
      -- returned
      let _ := writeStepDownResult
      none

/-- Embeds the mutable fields of `Fds` (fds.go): the id-keyed catalog (the
Go map, modeled as an association list with map update semantics), the
mutation-lock flag and its reason. -/
structure FdsState where
  fds : List (String × Fd)
  locked : Bool
  lockedReason : Option Err
deriving DecidableEq, Repr

/-- Go map read `f.fds[id]`. -/
def lookupFd (m : List (String × Fd)) (id : String) : Option Fd :=
  List.lookup id m

/-- Go map delete `delete(f.fds, id)`. -/
def eraseFd (m : List (String × Fd)) (id : String) : List (String × Fd) :=
  m.filter (fun p => !(p.1 == id))

/-- Go map assignment `f.fds[id] = e` (replaces any previous binding). -/
def setFd (m : List (String × Fd)) (id : String) (e : Fd) : List (String × Fd) :=
  (id, e) :: eraseFd m id

/-- A handle returned to the caller of a store operation: either built
from the stored duplicated FD (`net.FileListener` / `net.FileConn` /
`dupFd` on the catalog entry), or the freshly created socket/file itself. -/
inductive Handle where
  | fromStore (f : File)
  | fresh
deriving DecidableEq, Repr

/-- The outcome of creating a new socket (`cfg.Listen`, a user
`listenerFunc`, or a user `dialFn`): whether the result implements the
tableroll Listener/Conn interface, and what `dupConn` on it yields. -/
structure NewSock where
  isTableroll : Bool
  dupResult : Option File
deriving DecidableEq, Repr

/-- Oracle results for the external effects of the FD store operations. -/
structure FdsEnv where
  /-- `net.FileListener` success on a stored file. -/
  fileListener : File → Bool
  /-- `net.FileConn` success on a stored file. -/
  fileConn : File → Bool
  /-- `dupFd` success on a stored file (`fileLocked`). -/
  dupFd : File → Bool
  /-- result of `cfg.Listen(ctx, network, addr)` in `Fds.Listen`. -/
  cfgListen : String → String → Option NewSock
  /-- result of the user `listenerFunc(network, addr)` in `Fds.ListenWith`. -/
  listenerFn : String → String → Option NewSock
  /-- result of the user `dialFn(network, address)` in `Fds.DialWith`. -/
  dialFn : String → String → Option NewSock
  /-- result of the user `openFunc(name)` in `Fds.OpenFileWith`. -/
  openFn : String → Option File
  /-- result of `dupFile(newFi, id)` in `Fds.OpenFileWith`. -/
  dupFileFn : File → Option File
  /-- result of `item.file.Close()` in `Fds.Remove`. -/
  closeFile : File → Option Err

/-- Embeds `Fds.listenerLocked` (fds.go): absent id or nil file yields
`(nil, nil)`; otherwise build a listener from the stored file. -/
def listenerLocked (env : FdsEnv) (st : FdsState) (id : String) :
    Option Handle × Option Err :=
  match lookupFd st.fds id with
  | none => (none, none)
  | some entry =>
    match entry.file with
    | none => (none, none)
    | some f =>
      if env.fileListener f then (some (.fromStore f), none)
      else (none, some .inheritFailed)

/-- Embeds `Fds.connLocked` (fds.go). -/
def connLocked (env : FdsEnv) (st : FdsState) (id : String) :
    Option Handle × Option Err :=
  match lookupFd st.fds id with
  | none => (none, none)
  | some entry =>
    match entry.file with
    | none => (none, none)
    | some f =>
      if env.fileConn f then (some (.fromStore f), none)
      else (none, some .inheritFailed)

/-- Embeds `Fds.fileLocked` (fds.go): a fresh dup of the stored file so the
caller cannot invalidate the catalog. -/
def fileLocked (env : FdsEnv) (st : FdsState) (id : String) :
    Option Handle × Option Err :=
  match lookupFd st.fds id with
  | none => (none, none)
  | some entry =>
    match entry.file with
    | none => (none, none)
    | some f =>
      if env.dupFd f then (some (.fromStore f), none)
      else (none, some .dupFailed)

/-- Embeds `Fds.addConnLocked` (fds.go): dup the new socket and store the
entry under `id`. (`addListenerLocked` additionally calls
`SetUnlinkOnClose(false)`, an effect on the socket object only.) -/
def addConnLocked (st : FdsState) (id : String) (kind : FdKind)
    (network addr : String) (sock : NewSock) : Option Err × FdsState :=
  match sock.dupResult with
  | none => (some .dupFailed, st)
  | some f =>
    (none, { st with fds := setFd st.fds id ⟨some f, kind, id, network, addr⟩ })

/-- Embeds `Fds.Listen` (fds.go): return an inherited listener if present;
otherwise, if the store is locked, fail with the lock reason; otherwise
create, type-check, dup and store a new listener. -/
def ListenOp (env : FdsEnv) (st : FdsState) (id network addr : String) :
    (Option Handle × Option Err) × FdsState :=
  match listenerLocked env st id with
  | (_, some e) => ((none, some e), st)
  | (some h, none) => ((some h, none), st)
  | (none, none) =>
    if st.locked then ((none, st.lockedReason), st)
    else
      match env.cfgListen network addr with
      | none => ((none, some .createFailed), st)
      | some sock =>
        if !sock.isTableroll then ((none, some .notTableroll), st)
        else
          match addConnLocked st id .listener network addr sock with
          | (some e, st') => ((none, some e), st')
          | (none, st') => ((some .fresh, none), st')

/-- Embeds `Fds.ListenWith` (fds.go): like `Listen` but the construction
callback is user-provided. -/
def ListenWithOp (env : FdsEnv) (st : FdsState) (id network addr : String) :
    (Option Handle × Option Err) × FdsState :=
  match listenerLocked env st id with
  | (_, some e) => ((none, some e), st)
  | (some h, none) => ((some h, none), st)
  | (none, none) =>
    if st.locked then ((none, st.lockedReason), st)
    else
      match env.listenerFn network addr with
      | none => ((none, some .createFailed), st)
      | some sock =>
        if !sock.isTableroll then ((none, some .notTableroll), st)
        else
          match addConnLocked st id .listener network addr sock with
          | (some e, st') => ((none, some e), st')
          | (none, st') => ((some .fresh, none), st')

/-- Embeds `Fds.DialWith` (fds.go). -/
def DialWithOp (env : FdsEnv) (st : FdsState) (id network addr : String) :
    (Option Handle × Option Err) × FdsState :=
  match connLocked env st id with
  | (h, some e) => ((h, some e), st)
  | (some h, none) => ((some h, none), st)
  | (none, none) =>
    if st.locked then ((none, st.lockedReason), st)
    else
      match env.dialFn network addr with
      | none => ((none, some .createFailed), st)
      | some sock =>
        if !sock.isTableroll then ((none, some .notTableroll), st)
        else
          match addConnLocked st id .conn network addr sock with
          | (some e, st') => ((none, some e), st')
          | (none, st') => ((some .fresh, none), st')

/-- Embeds `Fds.OpenFileWith` (fds.go): return an inherited file if
present; otherwise, if locked, fail with the lock reason; otherwise open,
dup and store a new file entry (empty network/addr). -/
def OpenFileWithOp (env : FdsEnv) (st : FdsState) (id name : String) :
    (Option Handle × Option Err) × FdsState :=
  match fileLocked env st id with
  | (_, some e) => ((none, some e), st)
  | (some h, none) => ((some h, none), st)
  | (none, none) =>
    if st.locked then ((none, st.lockedReason), st)
    else
      match env.openFn name with
      | none => ((none, some .openFailed), st)
      | some fi =>
        match env.dupFileFn fi with
        | none => ((none, some .dupFailed), st)
        | some dup =>
          ((some .fresh, none),
            { st with fds := setFd st.fds id ⟨some dup, .file, id, "", ""⟩ })

/-- Embeds `Fds.Listener` (fds.go): lookup only, never consults the lock. -/
def ListenerOp (env : FdsEnv) (st : FdsState) (id : String) :
    (Option Handle × Option Err) × FdsState :=
  (listenerLocked env st id, st)

/-- Embeds `Fds.Conn` (fds.go). -/
def ConnOp (env : FdsEnv) (st : FdsState) (id : String) :
    (Option Handle × Option Err) × FdsState :=
  (connLocked env st id, st)

/-- Embeds `Fds.File` (fds.go). -/
def FileOp (env : FdsEnv) (st : FdsState) (id : String) :
    (Option Handle × Option Err) × FdsState :=
  (fileLocked env st id, st)

/-- Embeds `Fds.Remove` (fds.go): rejected only when the store is locked
with reason `ErrUpgradeInProgress`; otherwise delete the entry and close
its file. The third component lists the files actually closed. -/
def RemoveOp (env : FdsEnv) (st : FdsState) (id : String) :
    Option Err × FdsState × List File :=
  if st.locked && st.lockedReason == some .upgradeInProgress then
    (st.lockedReason, st, [])
  else
    match lookupFd st.fds id with
    | none => (some (.noElementInMap id), st, [])
    | some item =>
      let st' := { st with fds := eraseFd st.fds id }
      match item.file with
      | some f => (env.closeFile f, st', [f])
      | none => (none, st', [])

/-- Go error values that can come out of a dial, as compared by the `==`
checks in `isContextDialErr`: the two context sentinel errors, a
`net.OpError` wrapper around an inner error, the internal `errNoOwner`
sentinel, and anything else. -/
inductive GoError where
  | contextCanceled
  | contextDeadlineExceeded
  | opError (inner : GoError)
  | noOwner
  | other (msg : String)
deriving DecidableEq, Repr

/-- Embeds `isContextDialErr` (coordination.go): unwrap one `net.OpError`
layer, then compare against `context.Canceled` and
`context.DeadlineExceeded`. -/
def isContextDialErr (err : GoError) : Bool :=
  let e :=
    match err with
    | .opError inner => inner
    | e' => e'
  e == .contextCanceled || e == .contextDeadlineExceeded

/-- Embeds `upgradeSockPath` (coordination.go): `filepath.Join(dir,
oid + ".sock")`, modeled for a clean directory path. -/
def upgradeSockPath (coordinationDir oid : String) : String :=
  coordinationDir ++ "/" ++ oid ++ ".sock"

/-- Oracle results for the effects `coordinator.ConnectOwner` performs:
reading the owner-id file and dialing a socket path. -/
structure CoordEnv where
  /-- `(oid, err)` outcome of `c.GetOwnerID()`. -/
  getOwnerID : String × Option GoError
  /-- dial outcome per socket path; `none` is success. -/
  dial : String → Option GoError

/-- Embeds `coordinator.ConnectOwner` (coordination.go): fetch the owner
id, dial its socket; a context error from the dial is propagated
unchanged, any other dial failure becomes the `errNoOwner` sentinel. On
success the connection is represented by its socket path. -/
def ConnectOwner (env : CoordEnv) (dir : String) : Option String × Option GoError :=
  match env.getOwnerID with
  | (_, some err) => (none, some err)
  | (oid, none) =>
    let sockPath := upgradeSockPath dir oid
    match env.dial sockPath with
    | none => (some sockPath, none)
    | some err =>
      if isContextDialErr err then (none, some err)
      else (none, some .noOwner)

/-- Embeds `upgraderState` (mocks_test.go / the upgrader sources): the five
lifecycle states. -/
inductive UpgraderState where
  | checkingOwner
  | owner
  | transferringOwnership
  | draining
  | stopped
deriving DecidableEq, Repr, Fintype

/-- The error produced by an invalid transition attempt (`fmt.Errorf`
"unable to transition from %s to %s"). -/
inductive StateErr where
  | invalidTransition (src dst : UpgraderState)
deriving DecidableEq, Repr

/-- Embeds `validTransitions` (mocks_test.go): the allowed-successor table. -/
def validTransitions (s : UpgraderState) : List UpgraderState :=
  match s with
  | .checkingOwner => [.owner, .stopped]
  | .owner => [.transferringOwnership, .stopped]
  | .transferringOwnership => [.owner, .draining, .stopped]
  | .draining => [.draining, .stopped]
  | .stopped => [.stopped]

/-- Embeds `upgraderState.canTransitionTo` (mocks_test.go): scan the valid
targets, error if the requested state is not among them. -/
def canTransitionTo (u state : UpgraderState) : Option StateErr :=
  if (validTransitions u).contains state then none
  else some (.invalidTransition u state)

/-- Embeds `upgraderState.transitionTo` (mocks_test.go): check, then
assign; the returned state is the variable's value after the call. -/
def transitionTo (u state : UpgraderState) : Option StateErr × UpgraderState :=
  match canTransitionTo u state with
  | some err => (some err, u)
  | none => (none, state)

/-- Modelled from the spec: the transition table of §4.G, written directly
from the spec's rows, to be compared with the code's `transitionTo`. -/
def specAllowsTransition (s t : UpgraderState) : Bool :=
  match s, t with
  | .checkingOwner, .owner | .checkingOwner, .stopped => true
  | .owner, .transferringOwnership | .owner, .stopped => true
  | .transferringOwnership, .owner | .transferringOwnership, .draining
  | .transferringOwnership, .stopped => true
  | .draining, .draining | .draining, .stopped => true
  | .stopped, .stopped => true
  | _, _ => false

/-! Concrete fixtures used by the witness and counterexample theorems. -/

/-- A concrete stored file. -/
def fileA : File := ⟨[97], 3⟩

/-- A concrete catalog entry holding `fileA`. -/
def entryA : Fd := ⟨some fileA, .listener, "a", "tcp", "127.0.0.1:80"⟩

/-- An oracle environment in which every external effect succeeds. -/
def envAllOk : FdsEnv where
  fileListener := fun _ => true
  fileConn := fun _ => true
  dupFd := fun _ => true
  cfgListen := fun _ _ => some ⟨true, some ⟨[110], 9⟩⟩
  listenerFn := fun _ _ => some ⟨true, some ⟨[110], 9⟩⟩
  dialFn := fun _ _ => some ⟨true, some ⟨[110], 9⟩⟩
  openFn := fun _ => some ⟨[111], 11⟩
  dupFileFn := fun f => some f
  closeFile := fun _ => none

/-- A store holding only `entryA`, locked for an in-progress upgrade. -/
def stInProgress : FdsState := ⟨[("a", entryA)], true, some .upgradeInProgress⟩

/-- A store holding only `entryA`, locked after a completed upgrade. -/
def stCompleted : FdsState := ⟨[("a", entryA)], true, some .upgradeCompleted⟩

/-- A store holding only `entryA`, not locked. -/
def stUnlocked : FdsState := ⟨[("a", entryA)], false, none⟩

/-- A catalog entry with a nil underlying file. -/
def entryNil : Fd := ⟨none, .conn, "n", "", ""⟩

/-- A sibling environment in which every socket effect succeeds. -/
def envSibOk : SiblingEnv := ⟨true, true, fun _ => none, none⟩

/-- A coordinator environment whose dial fails with a context-cancellation
error wrapped in a `net.OpError`. -/
def envCoordCtx : CoordEnv := ⟨("o", none), fun _ => some (.opError .contextCanceled)⟩

/-- A coordinator environment whose dial fails with a connection-refused
style error. -/
def envCoordRefused : CoordEnv := ⟨("o", none), fun _ => some (.other "connection refused")⟩

/-! Helper lemmas about the version-tag codec. -/

namespace Proto

theorem decodeCrumb_encodeCrumb (c : Nat) (h : c < 4) :
    decodeCrumb (encodeCrumb c) = some c := by
  interval_cases c <;> rfl

theorem encodeCrumb_whitespace (c : Nat) :
    encodeCrumb c = 32 ∨ encodeCrumb c = 9 ∨ encodeCrumb c = 13 ∨ encodeCrumb c = 10 := by
  unfold encodeCrumb
  split
  · exact Or.inl rfl
  split
  · exact Or.inr (Or.inl rfl)
  split
  · exact Or.inr (Or.inr (Or.inl rfl))
  · exact Or.inr (Or.inr (Or.inr rfl))

theorem decodeLoop_append (A B : List Nat) (acc : Nat) :
    decodeLoop (A ++ B) acc =
      match decodeLoop A acc with
      | none => none
      | some a => decodeLoop B a := by
  induction A generalizing acc with
  | nil => rfl
  | cons c rest ih =>
    simp only [List.cons_append, decodeLoop]
    cases decodeCrumb c with
    | none => rfl
    | some crumb => exact ih _

/-- Key round-trip lemma, generalized over the accumulator: decoding the
reversed encoding of `v` starting from `acc` yields `acc` shifted past the
encoded crumbs plus `v`, as long as the final value fits in 32 bits (so no
intermediate step wraps). -/
theorem decodeLoop_encodeVersion (v : Nat) :
    ∀ acc : Nat, acc * 4 ^ (encodeVersion v).length + v < 2 ^ 32 →
      decodeLoop (encodeVersion v).reverse acc =
        some (acc * 4 ^ (encodeVersion v).length + v) := by
  induction v using Nat.strong_induction_on with
  | _ v ih =>
    intro acc hbound
    by_cases hv : v = 0
    · subst hv
      simp [encodeVersion, decodeLoop]
    · have hstep : encodeVersion v =
          encodeCrumb (v % 16 % 4) :: encodeCrumb (v % 16 / 4) :: encodeVersion (v / 16) := by
        rw [encodeVersion]
        simp [hv]
      have hlt : v / 16 < v := Nat.div_lt_self (Nat.pos_of_ne_zero hv) (by decide)
      set E := encodeVersion (v / 16) with hE
      have hlen : (encodeVersion v).length = E.length + 2 := by
        rw [hstep]; simp
      have hpow : (4 : Nat) ^ (E.length + 2) = 4 ^ E.length * 16 := by
        rw [pow_succ, pow_succ]; ring
      -- Abbreviate the shifted accumulator
      set A := acc * 4 ^ E.length with hA
      have hbound' : A * 16 + v < 2 ^ 32 := by
        rw [hlen, hpow] at hbound
        calc A * 16 + v = acc * (4 ^ E.length * 16) + v := by rw [hA]; ring
          _ < 2 ^ 32 := hbound
      have hrec := ih (v / 16) hlt acc (by rw [← hE, ← hA]; omega)
      rw [← hE, ← hA] at hrec
      rw [hstep]
      simp only [List.reverse_cons, List.append_assoc]
      rw [decodeLoop_append, hrec]
      simp only [List.cons_append, List.nil_append, decodeLoop,
        decodeCrumb_encodeCrumb _ (Nat.mod_lt _ (by decide)),
        decodeCrumb_encodeCrumb (v % 16 / 4) (by omega)]
      simp only [List.length_cons]
      have hpow' : (4 : Nat) ^ (E.length + 1 + 1) = 4 ^ E.length * 16 := by
        rw [pow_succ, pow_succ]; ring
      rw [hpow']
      have h1 : ((A + v / 16) * 4 + v % 16 / 4) % 2 ^ 32 = A * 4 + v / 4 := by omega
      rw [h1]
      have h2 : ((A * 4 + v / 4) * 4 + v % 16 % 4) % 2 ^ 32 = A * 16 + v := by omega
      rw [h2, hA]
      congr 1
      ring

theorem encodeVersion_whitespace (v : Nat) :
    ∀ b ∈ encodeVersion v, b = 32 ∨ b = 9 ∨ b = 13 ∨ b = 10 := by
  induction v using Nat.strong_induction_on with
  | _ v ih =>
    intro b hb
    by_cases hv : v = 0
    · subst hv; simp [encodeVersion] at hb
    · rw [encodeVersion] at hb
      simp only [hv, if_false, List.mem_cons] at hb
      rcases hb with h | h | h
      · rw [h]; exact encodeCrumb_whitespace _
      · rw [h]; exact encodeCrumb_whitespace _
      · exact ih (v / 16) (Nat.div_lt_self (Nat.pos_of_ne_zero hv) (by decide)) b h

end Proto

/-! The claims. -/

/-- C1: for every `uint32` value `v`, `decodeVersion (encodeVersion v)`
returns `v` without error, and every byte of `encodeVersion v` is one of
the four bytes space, tab, carriage return, line feed. -/
theorem claim_C1 (v : Nat) (h : v < 2 ^ 32) :
    Proto.decodeVersion (Proto.encodeVersion v) = some v ∧
    ∀ b ∈ Proto.encodeVersion v,
      (b = 32 ∨ b = 9 ∨ b = 13 ∨ b = 10) ∧ Proto.isJSONIgnorableWhitespace b = true := by
  constructor
  · have hmain := Proto.decodeLoop_encodeVersion v 0 (by simpa using h)
    simpa [Proto.decodeVersion] using hmain
  · intro b hb
    have hw := Proto.encodeVersion_whitespace v b hb
    refine ⟨hw, ?_⟩
    rcases hw with h | h | h | h <;> simp [Proto.isJSONIgnorableWhitespace, h]

/-- Witness for C1 at `v = 300`. -/
theorem claim_C1_witness :
    (300 : Nat) < 2 ^ 32 ∧
      (Proto.decodeVersion (Proto.encodeVersion 300) = some 300 ∧
       ∀ b ∈ Proto.encodeVersion 300,
         (b = 32 ∨ b = 9 ∨ b = 13 ∨ b = 10) ∧ Proto.isJSONIgnorableWhitespace b = true) :=
  ⟨by norm_num, claim_C1 300 (by norm_num)⟩

/-- C4: `transitionTo` succeeds exactly on the pairs of the spec's
transition table, and errors on every other pair. -/
theorem claim_C4 :
    ∀ s t : UpgraderState,
      (transitionTo s t).1 = none ↔ specAllowsTransition s t = true := by
  decide

/-- C10: `transitionTo` is atomic — on error the state variable is
unchanged, and only a valid transition mutates it (to the target). -/
theorem claim_C10 :
    ∀ s t : UpgraderState,
      ((transitionTo s t).1 ≠ none → (transitionTo s t).2 = s) ∧
      ((transitionTo s t).1 = none → (transitionTo s t).2 = t) := by
  decide

/-- Witness for C10: the invalid attempt Draining → Owner leaves the state
at Draining; the valid attempt Owner → Stopped moves it to Stopped. -/
theorem claim_C10_witness :
    ((transitionTo .draining .owner).1 ≠ none ∧
      (transitionTo .draining .owner).2 = .draining) ∧
    ((transitionTo .owner .stopped).1 = none ∧
      (transitionTo .owner .stopped).2 = .stopped) :=
  ⟨⟨by decide, (claim_C10 .draining .owner).1 (by decide)⟩,
   ⟨by decide, (claim_C10 .owner .stopped).2 (by decide)⟩⟩

/-- C7: in the sender's v1 ready handshake, a successful read of a
matching peer version yields a nil return even when writing the
"stepping down" ack fails — the write outcome `w` never affects the
result. -/
theorem claim_C7 (vInfo : Proto.VersionInformation) (w : Option Err)
    (hv : vInfo.version = Proto.ProtoVersion) :
    readyHandshake (vInfo, none) w = none := by
  simp [readyHandshake, hv]

/-- Witness for C7: version 1 peer, failing ack write, nil result. -/
theorem claim_C7_witness :
    readyHandshake (⟨1⟩, none) (some .writeJSONFailed) = none :=
  claim_C7 ⟨1⟩ (some .writeJSONFailed) rfl

/-- C8: `sendFile` rejects any name of at least 4096 bytes without
transmitting anything, and for shorter names performs the single send of
the name body plus the one-FD ancillary record. -/
theorem claim_C8 (fi : File) (r : Option Err) :
    (fi.name.length ≥ maxNameLen → sendFile fi r = (some .nameTooLong, [])) ∧
    (fi.name.length < maxNameLen → sendFile fi r = (r, [.fdMsg fi.name fi.fd])) := by
  constructor
  · intro h
    simp [sendFile, h]
  · intro h
    simp [sendFile, Nat.not_le.mpr h]

/-- Witness for C8: a 4096-byte name is rejected; a 2-byte name is sent. -/
theorem claim_C8_witness :
    sendFile ⟨List.replicate 4096 97, 5⟩ none = (some .nameTooLong, []) ∧
    sendFile ⟨[104, 105], 7⟩ none = (none, [.fdMsg [104, 105] 7]) :=
  ⟨(claim_C8 ⟨List.replicate 4096 97, 5⟩ none).1 (by rw [List.length_replicate]; decide),
   (claim_C8 ⟨[104, 105], 7⟩ none).2 (by decide)⟩

/-- C2: with the store locked for an in-progress upgrade, every operation
that would create a new catalog entry (Listen, ListenWith, DialWith,
OpenFileWith on an absent id) returns the lock reason and leaves the store
untouched, while lookups — Listener/Conn/File and the creators called on a
present id with a stored file — still return a handle without touching the
store. -/
theorem claim_C2 (env : FdsEnv) (st : FdsState) (id network addr name : String)
    (hlock : st.locked = true)
    (hreason : st.lockedReason = some .upgradeInProgress) :
    (lookupFd st.fds id = none →
      ListenOp env st id network addr = ((none, some .upgradeInProgress), st) ∧
      ListenWithOp env st id network addr = ((none, some .upgradeInProgress), st) ∧
      DialWithOp env st id network addr = ((none, some .upgradeInProgress), st) ∧
      OpenFileWithOp env st id name = ((none, some .upgradeInProgress), st)) ∧
    (∀ entry f, lookupFd st.fds id = some entry → entry.file = some f →
      (env.fileListener f = true →
        ListenerOp env st id = ((some (.fromStore f), none), st) ∧
        ListenOp env st id network addr = ((some (.fromStore f), none), st) ∧
        ListenWithOp env st id network addr = ((some (.fromStore f), none), st)) ∧
      (env.fileConn f = true →
        ConnOp env st id = ((some (.fromStore f), none), st) ∧
        DialWithOp env st id network addr = ((some (.fromStore f), none), st)) ∧
      (env.dupFd f = true →
        FileOp env st id = ((some (.fromStore f), none), st) ∧
        OpenFileWithOp env st id name = ((some (.fromStore f), none), st))) := by
  constructor
  · intro habsent
    refine ⟨?_, ?_, ?_, ?_⟩ <;>
      simp [ListenOp, ListenWithOp, DialWithOp, OpenFileWithOp,
        listenerLocked, connLocked, fileLocked, habsent, hlock, hreason]
  · intro entry f hfound hfile
    refine ⟨?_, ?_, ?_⟩
    · intro hok
      refine ⟨?_, ?_, ?_⟩ <;>
        simp [ListenerOp, ListenOp, ListenWithOp, listenerLocked, hfound, hfile, hok]
    · intro hok
      refine ⟨?_, ?_⟩ <;>
        simp [ConnOp, DialWithOp, connLocked, hfound, hfile, hok]
    · intro hok
      refine ⟨?_, ?_⟩ <;>
        simp [FileOp, OpenFileWithOp, fileLocked, hfound, hfile, hok]

/-- Witness for C2 on a store locked in-progress holding id "a": creators
on the absent id "b" fail with the lock reason; lookups and creators on the
present id "a" return a handle built from the stored file. -/
theorem claim_C2_witness :
    (ListenOp envAllOk stInProgress "b" "tcp" "addr" =
      ((none, some .upgradeInProgress), stInProgress) ∧
     OpenFileWithOp envAllOk stInProgress "b" "nm" =
      ((none, some .upgradeInProgress), stInProgress)) ∧
    (ListenerOp envAllOk stInProgress "a" =
      ((some (.fromStore fileA), none), stInProgress) ∧
     FileOp envAllOk stInProgress "a" =
      ((some (.fromStore fileA), none), stInProgress)) :=
  ⟨⟨((claim_C2 envAllOk stInProgress "b" "tcp" "addr" "nm" rfl rfl).1 (by decide)).1,
    ((claim_C2 envAllOk stInProgress "b" "tcp" "addr" "nm" rfl rfl).1 (by decide)).2.2.2⟩,
   ⟨(((claim_C2 envAllOk stInProgress "a" "tcp" "addr" "nm" rfl rfl).2 entryA fileA
        (by decide) rfl).1 rfl).1,
    (((claim_C2 envAllOk stInProgress "a" "tcp" "addr" "nm" rfl rfl).2 entryA fileA
        (by decide) rfl).2.2 rfl).1⟩⟩

/-- C3 counterexample: on the concrete store `stCompleted` (locked with
reason UpgradeCompleted, holding id "a"), `Remove "a"` succeeds, deletes
the entry, and closes its FD — refuting the claim that it fails with a
lock-reason error and leaves the entry and FD alone. -/
theorem claim_C3_counterexample :
    RemoveOp envAllOk stCompleted "a" =
      (none, ⟨[], true, some .upgradeCompleted⟩, [fileA]) ∧
    ¬((RemoveOp envAllOk stCompleted "a").1 = some .upgradeCompleted ∧
      (RemoveOp envAllOk stCompleted "a").2.1 = stCompleted ∧
      (RemoveOp envAllOk stCompleted "a").2.2 = []) := by
  constructor
  · rfl
  · decide

/-- C3 (amended): with the store locked with reason UpgradeCompleted,
Remove is not rejected by the lock — a present entry is deleted and its FD
closed (the close result is returned), and an absent id yields the
"no element in map" error. Only UpgradeInProgress causes the lock-reason
rejection. -/
theorem claim_C3_amended (env : FdsEnv) (st : FdsState) (id : String)
    (hreason : st.lockedReason = some .upgradeCompleted) :
    (∀ item f, lookupFd st.fds id = some item → item.file = some f →
      RemoveOp env st id =
        (env.closeFile f, { st with fds := eraseFd st.fds id }, [f])) ∧
    (lookupFd st.fds id = none →
      RemoveOp env st id = (some (.noElementInMap id), st, [])) := by
  have hcond : (st.locked && st.lockedReason == some Err.upgradeInProgress) = false := by
    simp [hreason]
  constructor
  · intro item f hfound hfile
    simp [RemoveOp, hcond, hfound, hfile]
  · intro habsent
    simp [RemoveOp, hcond, habsent]

/-- Witness for the amended C3 on `stCompleted`: removing the present "a"
succeeds and closes `fileA`; removing the absent "b" errors. -/
theorem claim_C3_amended_witness :
    RemoveOp envAllOk stCompleted "a" =
      (none, ⟨[], true, some .upgradeCompleted⟩, [fileA]) ∧
    RemoveOp envAllOk stCompleted "b" =
      (some (.noElementInMap "b"), stCompleted, []) :=
  ⟨(claim_C3_amended envAllOk stCompleted "a" rfl).1 entryA fileA (by decide) rfl,
   (claim_C3_amended envAllOk stCompleted "b" rfl).2 (by decide)⟩

/-- C9: when the store is not locked for an in-progress upgrade, removing
an absent id returns the "no element in map" error and leaves the catalog
(and everything else) unchanged, closing nothing. -/
theorem claim_C9 (env : FdsEnv) (st : FdsState) (id : String)
    (hnot : ¬(st.locked = true ∧ st.lockedReason = some .upgradeInProgress))
    (habsent : lookupFd st.fds id = none) :
    RemoveOp env st id = (some (.noElementInMap id), st, []) := by
  have hcond : (st.locked && st.lockedReason == some Err.upgradeInProgress) = false := by
    by_cases hl : st.locked = true
    · have hr : st.lockedReason ≠ some Err.upgradeInProgress := fun hr => hnot ⟨hl, hr⟩
      simp only [hl, Bool.true_and, beq_eq_false_iff_ne, ne_eq]
      exact hr
    · have hl' : st.locked = false := by
        cases h : st.locked
        · rfl
        · exact absurd h hl
      simp [hl']
  simp [RemoveOp, hcond, habsent]

/-- Witness for C9: removing the absent id "z" from the unlocked store. -/
theorem claim_C9_witness :
    RemoveOp envAllOk stUnlocked "z" =
      (some (.noElementInMap "z"), stUnlocked, []) :=
  claim_C9 envAllOk stUnlocked "z" (by decide) (by decide)

/-- C6: when the owner id was read successfully and the dial fails, a
context error — `context.Canceled` or `context.DeadlineExceeded`, possibly
wrapped in one `net.OpError` — is returned to the caller unchanged, and
every other dial failure becomes the internal `errNoOwner` sentinel. -/
theorem claim_C6 (env : CoordEnv) (dir oid : String) (e : GoError)
    (hown : env.getOwnerID = (oid, none))
    (hdial : env.dial (upgradeSockPath dir oid) = some e) :
    ConnectOwner env dir =
      (none, if isContextDialErr e then some e else some .noOwner) ∧
    (isContextDialErr e = true ↔
      e = .contextCanceled ∨ e = .contextDeadlineExceeded ∨
        e = .opError .contextCanceled ∨ e = .opError .contextDeadlineExceeded) := by
  constructor
  · simp only [ConnectOwner, hown, hdial]
    by_cases hc : isContextDialErr e <;> simp [hc]
  · cases e with
    | contextCanceled => simp [isContextDialErr]
    | contextDeadlineExceeded => simp [isContextDialErr]
    | noOwner => simp [isContextDialErr, beq_iff_eq]
    | other msg => simp [isContextDialErr, beq_iff_eq]
    | opError inner => cases inner <;> simp [isContextDialErr, beq_iff_eq]

/-- Witness for C6: an OpError-wrapped cancellation is propagated
unchanged; a connection-refused failure becomes the no-owner sentinel. -/
theorem claim_C6_witness :
    ConnectOwner envCoordCtx "d" = (none, some (.opError .contextCanceled)) ∧
    ConnectOwner envCoordRefused "d" = (none, some .noOwner) :=
  ⟨(claim_C6 envCoordCtx "d" "o" (.opError .contextCanceled) rfl rfl).1,
   (claim_C6 envCoordRefused "d" "o" (.other "connection refused") rfl rfl).1⟩

/-- The events of `sendLoop` are the wire messages of an initial segment
of its input, in input order; when the loop returns nil they cover the
whole input. -/
theorem sendLoop_events (r : Nat → Option Err) :
    ∀ (l : List Fd) (i : Nat),
      (∃ k, (sendLoop r l i).2 = (l.take k).map fdWireMsg) ∧
      ((sendLoop r l i).1 = none → (sendLoop r l i).2 = l.map fdWireMsg) := by
  intro l
  induction l with
  | nil =>
    intro i
    exact ⟨⟨0, rfl⟩, fun _ => rfl⟩
  | cons fi rest ih =>
    intro i
    by_cases hname : (fi.file.getD ⟨[], 0⟩).name.length ≥ maxNameLen
    · constructor
      · exact ⟨0, by simp [sendLoop, sendFile, hname]⟩
      · intro h
        exfalso
        simp [sendLoop, sendFile, hname] at h
    · cases hr : r i with
      | some err =>
        constructor
        · exact ⟨1, by simp [sendLoop, sendFile, hname, hr, fdWireMsg]⟩
        · intro h
          exfalso
          simp [sendLoop, sendFile, hname, hr] at h
      | none =>
        obtain ⟨⟨k, hk⟩, hfull⟩ := ih (i + 1)
        constructor
        · refine ⟨k + 1, ?_⟩
          simp [sendLoop, sendFile, hname, hr, fdWireMsg, hk]
        · intro h
          have htail : (sendLoop r rest (i + 1)).1 = none := by
            simp [sendLoop, sendFile, hname, hr] at h
            exact h
          simp [sendLoop, sendFile, hname, hr, fdWireMsg, hfull htail]

/-- C5: whenever the connection-to-file conversion and the metadata write
succeed, the trace `giveFDs` emits is the metadata record — listing
exactly the entries with a non-nil file — followed by the FD messages of
an initial segment of those same entries in the same order; and when
`giveFDs` returns nil, one FD message per listed entry was sent, in
exactly the metadata order. -/
theorem claim_C5 (env : SiblingEnv) (fds : List Fd)
    (hconn : env.connFileOk = true) (hwrite : env.writeJSONOk = true) :
    (∃ k, (giveFDs env fds).2 =
        .metadataBlob (fds.filter (fun fd => fd.file.isSome)) Proto.ProtoVersion ::
          ((fds.filter (fun fd => fd.file.isSome)).take k).map fdWireMsg) ∧
    ((giveFDs env fds).1 = none →
      (giveFDs env fds).2 =
        .metadataBlob (fds.filter (fun fd => fd.file.isSome)) Proto.ProtoVersion ::
          (fds.filter (fun fd => fd.file.isSome)).map fdWireMsg) := by
  obtain ⟨⟨k, hk⟩, hfull⟩ :=
    sendLoop_events env.sendmsgResult (fds.filter (fun fd => fd.file.isSome)) 0
  constructor
  · cases hl : (sendLoop env.sendmsgResult (fds.filter (fun fd => fd.file.isSome)) 0).1 with
    | some e => exact ⟨k, by simp [giveFDs, hconn, hwrite, hl, hk]⟩
    | none =>
      refine ⟨(fds.filter (fun fd => fd.file.isSome)).length, ?_⟩
      simp [giveFDs, hconn, hwrite, hl, hfull hl, List.take_length]
  · intro h
    cases hl : (sendLoop env.sendmsgResult (fds.filter (fun fd => fd.file.isSome)) 0).1 with
    | some e =>
      exfalso
      simp [giveFDs, hconn, hwrite, hl] at h
    | none =>
      simp [giveFDs, hconn, hwrite, hl, hfull hl]

/-- Witness for C5 on a concrete snapshot holding one valid entry and one
nil-file entry, with all socket effects succeeding. -/
theorem claim_C5_witness :
    (∃ k, (giveFDs envSibOk [entryA, entryNil]).2 =
        .metadataBlob ([entryA, entryNil].filter (fun fd => fd.file.isSome))
            Proto.ProtoVersion ::
          (([entryA, entryNil].filter (fun fd => fd.file.isSome)).take k).map fdWireMsg) ∧
    ((giveFDs envSibOk [entryA, entryNil]).1 = none →
      (giveFDs envSibOk [entryA, entryNil]).2 =
        .metadataBlob ([entryA, entryNil].filter (fun fd => fd.file.isSome))
            Proto.ProtoVersion ::
          ([entryA, entryNil].filter (fun fd => fd.file.isSome)).map fdWireMsg) :=
  claim_C5 envSibOk [entryA, entryNil] rfl rfl

end Tableroll
